import Mathlib

/-
  Verification development for the rdns.toys DNS responder (Rust).

  The embedding models, from the repository source:
    - src/src/geo/mod.rs            (standalone geolocation index: Geo)
    - src/src/services/geo/mod.rs   (service-wrapped geolocation index: GeoSvc)
    - src/src/handlers.rs           (query router / service dispatcher: DnsHandlers)
    - src/src/services/random/mod.rs (RandomService)

  Rust strings are modelled as lists of characters (`Str`).  Rust's
  `to_lowercase`/`to_uppercase` are modelled by their ASCII action, which is all
  the theorems below depend on.  Floating-point fields (latitude/longitude) are
  carried as their raw source text together with a syntactic model of
  `f64::from_str` validity; no theorem depends on float arithmetic.
-/

namespace RdnsToys

/-- Rust strings are modelled as lists of characters. -/
abbrev Str := List Char

/-- Character list of a Lean string literal (used to write concrete inputs). -/
def str (s : String) : Str := s.data

/-- ASCII decimal digit test (0-9). -/
def isDigitCh (c : Char) : Bool := decide (48 ≤ c.toNat ∧ c.toNat ≤ 57)

/-- ASCII whitespace test, modelling the whitespace trimmed by Rust `str::trim`. -/
def isWsp (c : Char) : Bool := c == ' ' || c == '\t' || c == '\n' || c == '\r'

/-- Per-character model of Rust `to_lowercase` (ASCII action: A-Z map to a-z). -/
def lowerChar (c : Char) : Char :=
  if 65 ≤ c.toNat ∧ c.toNat ≤ 90 then Char.ofNat (c.toNat + 32) else c

/-- Per-character model of Rust `to_uppercase` (ASCII action: a-z map to A-Z). -/
def upperChar (c : Char) : Char :=
  if 97 ≤ c.toNat ∧ c.toNat ≤ 122 then Char.ofNat (c.toNat - 32) else c

/-- Lowercase ASCII letter test (a-z). -/
def isLowerAlpha (c : Char) : Bool := decide (97 ≤ c.toNat ∧ c.toNat ≤ 122)

/-- Characters kept by the geo regex RE_CLEAN = "[^a-z/]+" (replaced by ""):
lowercase ASCII letters and the slash. -/
def keepGeo (c : Char) : Bool := isLowerAlpha c || c == '/'

/-- Model of `RE_CLEAN.replace_all(&text.to_lowercase(), "")` from
src/src/geo/mod.rs (also the `clean_text` closure of src/src/services/geo/mod.rs):
lowercase, then delete every character that is not a lowercase letter or '/'. -/
def normalize (s : Str) : Str := (s.map lowerChar).filter keepGeo

/-- Model of Rust `to_uppercase` on a string (ASCII action). -/
def toUpperStr (s : Str) : Str := s.map upperChar

/-- Model of Rust `str::split_once`: split at the first occurrence of `c`. -/
def splitOnce (s : Str) (c : Char) : Option (Str × Str) :=
  match s with
  | [] => none
  | a :: rest =>
    if a = c then some ([], rest)
    else (splitOnce rest c).map (fun p => (a :: p.1, p.2))

/-- Model of Rust `str::split(c)` collected into a list of segments. -/
def splitAll (s : Str) (c : Char) : List Str :=
  match s with
  | [] => [[]]
  | a :: rest =>
    let r := splitAll rest c
    if a = c then [] :: r
    else
      match r with
      | h :: t => (a :: h) :: t
      | [] => [[a]]

/-- Text before the first occurrence of `c` (Rust `s.split(c).next()`,
which always yields the first segment). -/
def beforeChar (s : Str) (c : Char) : Str := s.takeWhile (fun a => a ≠ c)

/-- Model of Rust `str::trim` (ASCII whitespace action). -/
def trimStr (s : Str) : Str := ((s.dropWhile isWsp).reverse.dropWhile isWsp).reverse

/-- Model of Rust `str::ends_with`. -/
def endsWith (s pat : Str) : Bool := pat.isSuffixOf s

/-- Iteration core of `trimEndMatches`.  The fuel argument only bounds the
number of removal passes (each pass removes at least one character, so
`s.length` passes always suffice); it never changes the result. -/
def trimEndAux (pat : Str) : Nat → Str → Str
  | 0, s => s
  | fuel + 1, s =>
    if pat ≠ [] ∧ pat.isSuffixOf s = true then
      trimEndAux pat fuel (s.take (s.length - pat.length))
    else s

/-- Model of Rust `str::trim_end_matches(pat)`: repeatedly remove `pat` from the
end while it is a suffix. -/
def trimEndMatches (s pat : Str) : Str := trimEndAux pat s.length s

/-- Model of Rust `str::trim_end_matches(c)` for a single character: remove all
trailing occurrences of `c`. -/
def trimEndChar (s : Str) (c : Char) : Str :=
  (s.reverse.dropWhile (fun a => a == c)).reverse

/-- Gazetteer entry, from `struct Location` of src/src/geo/mod.rs (identical in
src/src/services/geo/mod.rs).  `latitude`/`longitude` are carried as the raw
field text (their `f64` parse validity is checked at ingestion by
`parseF64Ok`); the `timezone: Tz` field is represented by `timezone_name`
having passed the `tzOk` check at ingestion, since no claim computes offsets. -/
structure Location where
  id : Str
  name : Str
  latitude : Str
  longitude : Str
  timezone_name : Str
  population : Nat
  country : Str
deriving DecidableEq, Repr

/-- The `tz_map: HashMap<String, Vec<Location>>` is modelled as an association
list with unique keys (lookup is by key, so bucket order is immaterial). -/
abbrev GeoMap := List (Str × List Location)

/-- Association-list lookup, modelling `HashMap::get`. -/
def alFind {α : Type} (m : List (Str × α)) (k : Str) : Option α :=
  match m with
  | [] => none
  | (k', v) :: rest => if k' = k then some v else alFind rest k

/-- Model of `map.entry(k).or_default().push(loc)`: append `loc` to the list at
`k`, creating the entry if absent. -/
def mapPush (m : GeoMap) (k : Str) (loc : Location) : GeoMap :=
  match m with
  | [] => [(k, [loc])]
  | (k', v) :: rest =>
    if k' = k then (k', v ++ [loc]) :: rest else (k', v) :: mapPush rest k loc

/-- Model of `map.entry(k).or_insert_with(|| v)`: insert `(k, v)` only when the
key is absent; an existing entry is left untouched. -/
def mapInsertIfAbsent (m : GeoMap) (k : Str) (v : List Location) : GeoMap :=
  if (alFind m k).isSome then m else m ++ [(k, v)]

/-- Insertion step of a by-key sort in non-increasing `population` order: the
new element goes after existing elements of equal population. -/
def insertDesc (loc : Location) : List Location → List Location
  | [] => [loc]
  | x :: xs =>
    if x.population < loc.population then loc :: x :: xs else x :: insertDesc loc xs

/-- Executable by-key sort in non-increasing `population` order, modelling
`locs.sort_unstable_by_key(|loc| Reverse(loc.population))`.  The source call
guarantees only the ordering by key; every concrete input below either has no
population ties or ties only between identical elements, so its result does
not depend on which key-respecting algorithm is used. -/
def sortDescByPop (l : List Location) : List Location := l.foldr insertDesc []

/-- Final phase of both `load` functions: sort every key's list by descending
population. -/
def sortPhase (m : GeoMap) : GeoMap := m.map (fun p => (p.1, sortDescByPop p.2))

namespace Geo

/-- First loop of `Geo::load` (src/src/geo/mod.rs lines 127-133): insert every
location under its normalized display name.  The `count` field is not modelled;
no claim concerns it. -/
def namePhase (locations : List Location) (m : GeoMap) : GeoMap :=
  locations.foldl (fun acc loc => mapPush acc (normalize loc.name) loc) m

/-- Alias-key cleaning of src/src/geo/mod.rs line 137-139:
`RE_CLEAN.replace_all(&city_alias.to_string(), "")` — note the source does NOT
lowercase here, so uppercase letters are deleted rather than mapped down. -/
def aliasClean (s : Str) : Str := s.filter keepGeo

/-- Second loop of `Geo::load` (src/src/geo/mod.rs lines 135-144): for every
location whose timezone name has a second '/'-segment, insert the location
under the cleaned segment, only when that key is absent (`or_insert_with`). -/
def aliasPhase (locations : List Location) (m : GeoMap) : GeoMap :=
  locations.foldl
    (fun acc loc =>
      match (splitAll loc.timezone_name '/').get? 1 with
      | some cityAlias => mapInsertIfAbsent acc (aliasClean cityAlias) [loc]
      | none => acc)
    m

/-- Model of `Geo::load` from src/src/geo/mod.rs: name insertions, then alias
insertions, then per-key descending-population sort. -/
def load (locations : List Location) : GeoMap :=
  sortPhase (aliasPhase locations (namePhase locations []))

/-- Model of `Geo::query` from src/src/geo/mod.rs lines 171-209. -/
def query (m : GeoMap) (q : Str) : Option (List Location) :=
  let p : Str × Option Str :=
    match splitOnce q '/' with
    | some (city, country) =>
      if country.length = 2 then (city, some (toUpperStr country)) else (q, none)
    | none => (q, none)
  let cleanedQuery := normalize p.1
  match alFind m cleanedQuery with
  | none => none
  | some locations =>
    match p.2 with
    | some country =>
      let filtered := locations.filter (fun loc => loc.country == country)
      if filtered.isEmpty then none else some filtered
    | none => some locations

end Geo

namespace GeoSvc

/-- Model of `Geo::load` from src/src/services/geo/mod.rs lines 137-162: a single
loop pushes each location under its cleaned name and then — unconditionally,
via `entry(alias_key).or_default().push(...)` — under its cleaned timezone
alias, followed by the per-key descending-population sort. -/
def load (locations : List Location) : GeoMap :=
  sortPhase
    (locations.foldl
      (fun acc loc =>
        let acc1 := mapPush acc (normalize loc.name) loc
        match (splitAll loc.timezone_name '/').get? 1 with
        | some cityAlias => mapPush acc1 (normalize cityAlias) loc
        | none => acc1)
      [])

end GeoSvc

/-- One tab-separated gazetteer row, already split into fields (the csv crate
hands the source one `StringRecord` per row). -/
abbrev Row := List Str

/-- Model of `u64::from_str`: optional leading '+', one or more digits, value
below 2^64 (overflow is a parse error). -/
def parseU64 (s : Str) : Option Nat :=
  let digits := match s with
    | '+' :: rest => rest
    | _ => s
  if digits ≠ [] ∧ digits.all isDigitCh then
    let n := digits.foldl (fun acc c => 10 * acc + (c.toNat - 48)) 0
    if n < 2 ^ 64 then some n else none
  else none

/-- Exponent part of a float literal: optional sign then one or more digits. -/
def expPartOk (s : Str) : Bool :=
  let t := match s with
    | '+' :: rest => rest
    | '-' :: rest => rest
    | _ => s
  t ≠ [] && t.all isDigitCh

/-- Mantissa of a float literal: digits, optionally with one '.', at least one
digit overall. -/
def mantissaOk (m : Str) : Bool :=
  match splitOnce m '.' with
  | none => m ≠ [] && m.all isDigitCh
  | some (a, b) => (a ≠ [] || b ≠ []) && a.all isDigitCh && b.all isDigitCh

/-- Syntactic model of `f64::from_str(..).is_ok()` for the decimal literal
forms: optional sign, mantissa, optional e/E exponent.  (The special forms
"inf"/"NaN" are not modelled; no concrete input below uses them and no theorem
depends on this predicate's extent.) -/
def parseF64Ok (s : Str) : Bool :=
  let t := match s with
    | '+' :: rest => rest
    | '-' :: rest => rest
    | _ => s
  match splitOnce t 'e' with
  | some (m, ex) => mantissaOk m && expPartOk ex
  | none =>
    match splitOnce t 'E' with
    | some (m, ex) => mantissaOk m && expPartOk ex
    | none => mantissaOk t

/-- Timezone identifiers recognized by `Tz::from_str` (chrono-tz).  chrono-tz
embeds the full IANA table; the model enumerates the identifiers occurring in
the concrete datasets of this file.  No theorem depends on the extent of this
set. -/
def knownTimezones : List Str :=
  [str "Europe/Paris", str "America/Chicago", str "America/New_York",
   str "Asia/Kolkata", str "Europe/Berlin"]

/-- Membership model of `Tz::from_str(..).is_ok()`. -/
def tzOk (s : Str) : Bool := knownTimezones.contains s

namespace Geo

/-- Per-row parsing closure of `Geo::read_file` (src/src/geo/mod.rs lines
79-105): derive the name by trim / cut-at-'(' / trim, check the coordinate,
population and timezone fields, and build the `Location`; any failure yields
`none` (the row is dropped). -/
def parseRow (record : Row) : Option Location :=
  match record.get? 2, record.get? 4, record.get? 5, record.get? 8,
        record.get? 14, record.get? 17, record.get? 0 with
  | some nameField, some latField, some lonField, some countryField,
    some popField, some tzField, some idField =>
    let name := trimStr (beforeChar (trimStr nameField) '(')
    if parseF64Ok latField ∧ parseF64Ok lonField ∧ tzOk tzField then
      match parseU64 popField with
      | some population =>
        some ⟨idField, name, latField, lonField, tzField, population, countryField⟩
      | none => none
    else none
  | _, _, _, _, _, _, _ => none

/-- Body of the `read_file` loop for one successfully read record: skip rows
whose field count is not 19, then keep the row only when `parseRow` succeeds. -/
def processRow (record : Row) (acc : List Location) : List Location :=
  if record.length ≠ 19 then acc
  else
    match parseRow record with
    | some loc => acc ++ [loc]
    | none => acc

/-- Iteration of `rdr.records()` after the first record.  The source builds the
csv reader without `flexible(true)`, so the csv crate compares every record's
field count against the first record's and yields `Err(UnequalLengths)` on a
mismatch; the `let record = result?;` in the source propagates that error out
of `read_file`. -/
def readFileLoop (expected : Nat) (rows : List Row) (acc : List Location) :
    Except Str (List Location) :=
  match rows with
  | [] => .ok acc
  | r :: rest =>
    if r.length ≠ expected then .error (str "UnequalLengths")
    else readFileLoop expected rest (processRow r acc)

/-- Model of `Geo::read_file` (src/src/geo/mod.rs lines 61-113) over the list
of raw rows of the dataset (file-open errors are outside the model). -/
def read_file (rows : List Row) : Except Str (List Location) :=
  match rows with
  | [] => .ok []
  | first :: rest => readFileLoop first.length rest (processRow first [])

end Geo

/-- DNS record types relevant to the router (`MX` stands in for every type the
router's catch-all arms ignore). -/
inductive RecordType
  | TXT
  | A
  | AAAA
  | MX
deriving DecidableEq, Repr

/-- DNS operation codes (hickory `OpCode`; the router only distinguishes
`Query` from the rest). -/
inductive OpCode
  | Query
  | Status
  | Notify
  | Update
deriving DecidableEq, Repr

/-- Client address, as used by the IP echo service. -/
inductive IpAddr
  | v4 (a b c d : Nat)
  | v6 (text : Str)
deriving DecidableEq, Repr

/-- Decimal rendering of a Nat (digit characters). -/
def natToStr (n : Nat) : Str := Nat.toDigits 10 n

/-- Model of `IpAddr::to_string` (dotted quad for v4; v6 carries its text). -/
def ipToStr : IpAddr → Str
  | .v4 a b c d =>
    natToStr a ++ str "." ++ natToStr b ++ str "." ++ natToStr c ++ str "." ++ natToStr d
  | .v6 t => t

/-- Record payloads the router produces (hickory `RData` restricted to the
variants the source constructs). -/
inductive RDataM
  | txt (texts : List Str)
  | a (o1 o2 o3 o4 : Nat)
  | aaaa (addr : Str)
deriving DecidableEq, Repr

/-- Abstract resource record: name, TTL, payload. -/
structure DnsRecord where
  name : Str
  ttl : Nat
  rdata : RDataM
deriving DecidableEq, Repr

/-- One question of a request: queried name (as rendered by `to_string`, i.e.
FQDN with trailing dot) and requested record type. -/
structure DnsQuestion where
  name : Str
  queryType : RecordType
deriving DecidableEq, Repr

/-- Parsed DNS request as the router sees it: opcode, question list, source
address. -/
structure DnsRequest where
  opCode : OpCode
  queries : List DnsQuestion
  srcIp : IpAddr

/-- Service capability of src/src/handlers.rs (`trait Service`): a cleaned
query string to either an answer list or an error. -/
abbrev ServiceFn := Str → Except Str (List Str)

/-- The `DnsHandlers` state: suffix registry, authoritative domain (as rendered
by `to_string`), and the precomputed help records.  The `HashMap` registry is
modelled as an association list; its iteration order in `handle_request` is
one fixed but arbitrary order, matching the unspecified `HashMap` order. -/
structure DnsHandlers where
  services : List (Str × ServiceFn)
  domain : Str
  help_records : List DnsRecord

namespace DnsHandlers

/-- Model of `DnsHandlers::clean_query` (src/src/handlers.rs lines 332-335):
strip the suffix repeatedly from the end, strip trailing dots, then delete
every character outside [A-Za-z0-9/\-.:,] (regex RE_CLEAN of handlers.rs). -/
def allowedQueryChar (c : Char) : Bool :=
  decide (97 ≤ c.toNat ∧ c.toNat ≤ 122) || decide (65 ≤ c.toNat ∧ c.toNat ≤ 90) ||
  isDigitCh c || c == '/' || c == '-' || c == '.' || c == ':' || c == ','

/-- Model of `DnsHandlers::clean_query`. -/
def clean_query (query sfx : Str) : Str :=
  (trimEndChar (trimEndMatches query sfx) '.').filter allowedQueryChar

/-- Model of `DnsHandlers::create_response` (src/src/handlers.rs lines 360-372):
each answer string becomes a TXT record with TTL 60 and the root name.  The
source's error branch is only reachable through `Name::from_str(".")`, which
cannot fail, so the model always returns `ok`. -/
def create_response (answers : List Str) : Except Str (List DnsRecord) :=
  .ok (answers.map (fun ans => ⟨str ".", 60, .txt [ans]⟩))

/-- Model of `DnsHandlers::create_error_response` (src/src/handlers.rs lines
385-391): a TXT record with TTL 1 whose text is "error: " followed by the
message. -/
def create_error_response (queryName msg : Str) : DnsRecord :=
  ⟨queryName, 1, .txt [str "error: " ++ msg]⟩

/-- Model of `DnsHandlers::handle_default_query` (src/src/handlers.rs lines
403-408). -/
def handle_default_query (h : DnsHandlers) (queryName : Str) : DnsRecord :=
  create_error_response queryName (str "unknown query, try: dig help @" ++ h.domain)

/-- Model of `DnsHandlers::handle_help_query`: the precomputed help records
with their names rewritten to the queried name. -/
def handle_help_query (h : DnsHandlers) (queryName : Str) : List DnsRecord :=
  h.help_records.map (fun r => { r with name := queryName })

/-- Model of `DnsHandlers::handle_ip_query` (src/src/handlers.rs lines 146-178):
TXT echoes the client address as text with TTL 60 (IP_TTL); A answers only for
IPv4 clients; other types get no answer. -/
def handle_ip_query (request : DnsRequest) (queryName : Str)
    (queryType : RecordType) : Option DnsRecord :=
  if queryType ≠ .TXT ∧ queryType ≠ .A then none
  else
    match queryType with
    | .TXT => some ⟨queryName, 60, .txt [ipToStr request.srcIp]⟩
    | .A =>
      match request.srcIp with
      | .v4 a b c d => some ⟨queryName, 60, .a a b c d⟩
      | .v6 _ => none
    | _ => none

/-- Model of `DnsHandlers::handle_pi_query` (src/src/handlers.rs lines
197-232): the constant pi as TXT, IPv4 or IPv6 with TTL 31536000 (PI_TTL). -/
def handle_pi_query (queryName : Str) (queryType : RecordType) : Option DnsRecord :=
  match queryType with
  | .TXT =>
    some ⟨queryName, 31536000,
      .txt [str "3.141592653589793238462643383279502884197169"]⟩
  | .A => some ⟨queryName, 31536000, .a 3 141 59 27⟩
  | .AAAA =>
    some ⟨queryName, 31536000, .aaaa (str "3141:5926:5358:9793:2384:6264:3383:2795")⟩
  | _ => none

/-- Question loop of `process_service_request` (src/src/handlers.rs lines
275-306): skip questions whose type is neither TXT nor A; clean the queried
name; look up the service; on an answer, append the response records with
their names rewritten to the queried name; on a service error, fail
immediately, discarding the records accumulated so far. -/
def processQuestions (h : DnsHandlers) (sfx : Str) :
    List DnsQuestion → List DnsRecord → Except Str (List DnsRecord)
  | [], acc => .ok acc
  | q :: rest, acc =>
    if q.queryType ≠ .TXT ∧ q.queryType ≠ .A then processQuestions h sfx rest acc
    else
      let domainSuffix := str "." ++ sfx ++ str "." ++ h.domain
      let cleanedQuery := clean_query q.name domainSuffix
      match alFind h.services sfx with
      | none => processQuestions h sfx rest acc
      | some service =>
        match service cleanedQuery with
        | .ok answers =>
          match create_response answers with
          | .ok dnsRecords =>
            processQuestions h sfx rest
              (acc ++ dnsRecords.map (fun r => { r with name := q.name }))
          | .error _ => .error (str "Error preparing a response")
        | .error e => .error e

/-- Model of `DnsHandlers::process_service_request` (src/src/handlers.rs lines
260-308): reject non-query opcodes, reject more than 5 questions, then run
the question loop. -/
def process_service_request (h : DnsHandlers) (request : DnsRequest)
    (sfx : Str) : Except Str (List DnsRecord) :=
  if request.opCode ≠ .Query then .error (str "Not a query operation")
  else if request.queries.length > 5 then .error (str "Too many queries")
  else processQuestions h sfx request.queries []

/-- Model of `DnsHandlers::handle_request` (src/src/handlers.rs lines 443-481):
empty request error; help branch; hardcoded ip and pi branches (which fall
through when the sub-handler returns no record); first registered suffix whose
dotted pattern matches; otherwise the unknown-query record. -/
def handle_request (h : DnsHandlers) (request : DnsRequest) :
    Except Str (List DnsRecord) :=
  match request.queries with
  | [] => .error (str "No queries in request")
  | q :: _ =>
    let queryName := q.name
    let queryType := q.queryType
    if endsWith queryName (str "help." ++ h.domain) then
      .ok (handle_help_query h queryName)
    else
      match (if endsWith queryName (str "ip." ++ h.domain) then
               handle_ip_query request queryName queryType
             else none) with
      | some record => .ok [record]
      | none =>
        match (if endsWith queryName (str "pi." ++ h.domain) then
                 handle_pi_query queryName queryType
               else none) with
        | some record => .ok [record]
        | none =>
          match h.services.find?
              (fun p => endsWith queryName (str "." ++ p.1 ++ str "." ++ h.domain)) with
          | some p => process_service_request h request p.1
          | none => .ok [handle_default_query h queryName]

end DnsHandlers

/-- Outcome of one `RandomService::query` call: an answer (carrying the
validated inclusive range from which the TXT value is drawn — the drawn value
itself is nondeterministic), no answer, or a panic (Rust `unwrap` on `Err`). -/
inductive RandomOutcome
  | answered (mn mx : Int)
  | noAnswer
  | panicked (msg : Str)
deriving DecidableEq, Repr

namespace RandomService

/-- Model of the RANGE_REGEX capture `^([0-9]+)-([0-9]+)$` of
src/src/services/random/mod.rs: the query must be nonempty digits, '-',
nonempty digits; since digits never contain '-', splitting at the first '-'
is equivalent to the regex. -/
def rangeCaptures (q : Str) : Option (Str × Str) :=
  match splitOnce q '-' with
  | some (a, b) =>
    if a ≠ [] ∧ b ≠ [] ∧ a.all isDigitCh ∧ b.all isDigitCh then some (a, b) else none
  | none => none

/-- Model of `i32::from_str` on a capture-group string (digit-only by
construction): value must fit in i32, overflow is a parse error. -/
def parseI32 (s : Str) : Option Int :=
  if s ≠ [] ∧ s.all isDigitCh then
    let n := s.foldl (fun acc c => 10 * acc + (c.toNat - 48)) 0
    if n ≤ 2147483647 then some (Int.ofNat n) else none
  else none

/-- Deterministic part of `RandomService::generate_random_number`
(src/src/services/random/mod.rs lines 49-72): regex match, i32 parses, range
checks.  On success the validated range [min, max] is returned; the source
then draws a uniform value from it. -/
def generate_random_number (query : Str) : Except Str (Int × Int) :=
  match rangeCaptures query with
  | none => .error (str "Invalid random query format")
  | some (minStr, maxStr) =>
    match parseI32 minStr with
    | none => .error (str "Invalid minimum value " ++ minStr)
    | some mn =>
      match parseI32 maxStr with
      | none => .error (str "Invalid maximum value " ++ maxStr)
      | some mx =>
        if mn > mx then .error (str "Minimum value must be less than maximum value")
        else if mn < 0 ∨ mx < 0 then
          .error (str "Minimum and maximum values must be positive")
        else .ok (mn, mx)

/-- Model of `RandomService::query` (src/src/services/random/mod.rs lines
92-110): for TXT, `generate_random_number(cleaned_query).unwrap()` — an `Err`
makes the `unwrap` panic, modelled by the `panicked` outcome; every other type
returns no answer. -/
def query (queryType : RecordType) (cleanedQuery : Str) : RandomOutcome :=
  match queryType with
  | .TXT =>
    match generate_random_number cleanedQuery with
    | .ok (mn, mx) => .answered mn mx
    | .error e => .panicked e
  | _ => .noAnswer

end RandomService

/-! Concrete fixtures used by witnesses and counterexamples. -/

/-- Paris, France (geonames row shape): high population. -/
def locFR : Location :=
  ⟨str "1", str "Paris", str "48.85", str "2.35", str "Europe/Paris", 2000000, str "FR"⟩

/-- Paris, Texas, US: low population. -/
def locUS : Location :=
  ⟨str "2", str "Paris", str "33.66", str "-95.55", str "America/Chicago", 25000, str "US"⟩

/-- A geo index holding both Paris entries under the key "paris". -/
def parisMap : GeoMap := [(str "paris", [locFR, locUS])]

/-- Boulogne-Billancourt, France: its timezone "Europe/Paris" has alias segment
"Paris", colliding with the primary name key of `locFR`. -/
def locBB : Location :=
  ⟨str "3", str "Boulogne-Billancourt", str "48.83", str "2.25", str "Europe/Paris",
   120071, str "FR"⟩

/-- A valid 19-field geonames row (Paris). -/
def gazRow1 : Row :=
  [str "1", str "Paris", str "Paris", str "", str "48.85", str "2.35", str "P",
   str "PPLC", str "FR", str "", str "", str "", str "", str "", str "2138551",
   str "", str "", str "Europe/Paris", str "2023-01-01"]

/-- A row with only 18 tab-separated fields (one ignored column missing). -/
def gazRow2 : Row :=
  [str "2", str "Chicago", str "Chicago", str "", str "41.85", str "-87.65", str "P",
   str "PPL", str "US", str "", str "", str "", str "", str "2695598", str "",
   str "", str "America/Chicago", str "2023-01-01"]

/-- A stand-in registered service: answers every cleaned query with one string. -/
def uuidFn : ServiceFn := fun _ => .ok [str "u-1"]

/-- Handlers with the single registered suffix "uuid" over domain
"example.com." (the FQDN rendering used throughout the spec examples). -/
def H1 : DnsHandlers := ⟨[(str "uuid", uuidFn)], str "example.com.", []⟩

/-- Argument-prefixed uuid query. -/
def reqArg : DnsRequest := ⟨.Query, [⟨str "5.uuid.example.com.", .TXT⟩], .v4 1 2 3 4⟩

/-- Bare-suffix uuid query (no argument segment). -/
def reqBare : DnsRequest := ⟨.Query, [⟨str "uuid.example.com.", .TXT⟩], .v4 1 2 3 4⟩

/-- Query matching the hardcoded ip pattern but no registered suffix. -/
def reqIp : DnsRequest := ⟨.Query, [⟨str "ip.example.com.", .TXT⟩], .v4 9 8 7 6⟩

/-- Query matching nothing at all. -/
def reqBogus : DnsRequest := ⟨.Query, [⟨str "bogus.example.com.", .TXT⟩], .v4 1 2 3 4⟩

/-- A standard query carrying six questions under the registered suffix. -/
def req6 : DnsRequest :=
  ⟨.Query,
   [⟨str "a.uuid.example.com.", .TXT⟩, ⟨str "b.uuid.example.com.", .TXT⟩,
    ⟨str "c.uuid.example.com.", .TXT⟩, ⟨str "d.uuid.example.com.", .TXT⟩,
    ⟨str "e.uuid.example.com.", .TXT⟩, ⟨str "f.uuid.example.com.", .TXT⟩],
   .v4 1 2 3 4⟩

/-- Six questions but a non-query opcode (Status). -/
def reqStatus6 : DnsRequest :=
  ⟨.Status,
   [⟨str "a.uuid.example.com.", .TXT⟩, ⟨str "b.uuid.example.com.", .TXT⟩,
    ⟨str "c.uuid.example.com.", .TXT⟩, ⟨str "d.uuid.example.com.", .TXT⟩,
    ⟨str "e.uuid.example.com.", .TXT⟩, ⟨str "f.uuid.example.com.", .TXT⟩],
   .v4 1 2 3 4⟩

/-- A map fixture with one occupied key, for the alias-fallback witness. -/
def occupiedMap : GeoMap := [(str "paris", [locFR])]

/-! Helper lemmas. -/

/-- Characters surviving the geo filter (lowercase letters and '/') are fixed
points of lowercasing. -/
theorem lowerChar_of_keepGeo {c : Char} (h : keepGeo c = true) : lowerChar c = c := by
  have h' : (97 ≤ c.toNat ∧ c.toNat ≤ 122) ∨ c = '/' := by
    simp only [keepGeo, isLowerAlpha, Bool.or_eq_true, decide_eq_true_eq,
      beq_iff_eq] at h
    exact h
  unfold lowerChar
  rcases h' with h' | h'
  · rw [if_neg (by omega)]
  · subst h'
    rw [if_neg (by decide)]

/-- Association-list lookup hits in the left part of an append. -/
theorem alFind_append_left {m m' : GeoMap} {k : Str} {v : List Location}
    (h : alFind m k = some v) : alFind (m ++ m') k = some v := by
  induction m with
  | nil => simp [alFind] at h
  | cons p rest ih =>
    obtain ⟨k', v'⟩ := p
    by_cases hk : k' = k
    · simp only [alFind, if_pos hk] at h
      simp only [List.cons_append, alFind, if_pos hk]
      exact h
    · simp only [alFind, if_neg hk] at h
      simp only [List.cons_append, alFind, if_neg hk]
      exact ih h

/-- Insert-if-absent never changes the value stored at an already-present key. -/
theorem alFind_mapInsertIfAbsent {m : GeoMap} {k : Str} {v : List Location}
    (h : alFind m k = some v) (k' : Str) (w : List Location) :
    alFind (mapInsertIfAbsent m k' w) k = some v := by
  unfold mapInsertIfAbsent
  split
  · exact h
  · exact alFind_append_left h

/-- When the pattern is not a suffix, the removal loop stops immediately,
whatever the remaining fuel. -/
theorem trimEndAux_of_not_suffix (pat : Str) (fuel : Nat) (s : Str)
    (h : pat.isSuffixOf s = false) : trimEndAux pat fuel s = s := by
  cases fuel with
  | zero => rfl
  | succ n =>
    unfold trimEndAux
    rw [if_neg]
    rintro ⟨-, h2⟩
    rw [h] at h2
    exact Bool.false_ne_true h2

/-- Stripping a nonempty suffix from `arg ++ sfx` yields `arg` when `sfx` is
not itself a suffix of `arg`. -/
theorem trimEndMatches_append (arg sfx : Str) (hne : sfx ≠ [])
    (hns : sfx.isSuffixOf arg = false) : trimEndMatches (arg ++ sfx) sfx = arg := by
  have hpos : 0 < sfx.length := List.length_pos.mpr hne
  have hsfx : sfx.isSuffixOf (arg ++ sfx) = true := by
    rw [List.isSuffixOf_iff_suffix]
    exact ⟨arg, rfl⟩
  obtain ⟨n, hn⟩ : ∃ n, (arg ++ sfx).length = n + 1 :=
    ⟨(arg ++ sfx).length - 1, by simp only [List.length_append]; omega⟩
  unfold trimEndMatches
  rw [hn]
  unfold trimEndAux
  rw [if_pos ⟨hne, hsfx⟩]
  have hlen : (arg ++ sfx).length - sfx.length = arg.length := by
    simp only [List.length_append]
    omega
  rw [hlen, List.take_left]
  exact trimEndAux_of_not_suffix sfx n arg hns

/-- Trimming a trailing character from a string that does not end in it is the
identity. -/
theorem trimEndChar_no_trailing (arg : Str) (c : Char)
    (hlast : arg.getLast? ≠ some c) : trimEndChar arg c = arg := by
  unfold trimEndChar
  cases harg : arg.reverse with
  | nil =>
    simp only [List.dropWhile_nil, List.reverse_nil]
    exact (List.reverse_eq_nil_iff.mp harg).symm
  | cons a t =>
    have hhead : arg.getLast? = some a := by
      rw [← List.head?_reverse, harg]
      rfl
    have ha : (a == c) = false := by
      rw [beq_eq_false_iff_ne]
      intro hac
      exact hlast (by rw [hhead, hac])
    rw [List.dropWhile_cons, ha]
    simp only [Bool.false_eq_true, if_false]
    rw [← harg, List.reverse_reverse]

/-! Claim theorems. -/

/-- C9: the index normalization function is idempotent:
`normalize (normalize x) = normalize x` for every string `x`. -/
theorem normalize_idempotent (x : Str) : normalize (normalize x) = normalize x := by
  unfold normalize
  have hmem : ∀ c ∈ (x.map lowerChar).filter keepGeo, keepGeo c = true :=
    fun c hc => List.of_mem_filter hc
  have hmap : ((x.map lowerChar).filter keepGeo).map lowerChar
      = (x.map lowerChar).filter keepGeo := by
    rw [List.map_congr_left (fun a ha => lowerChar_of_keepGeo (hmem a ha)), List.map_id']
  rw [hmap]
  exact List.filter_eq_self.mpr hmem

/-- C2 (code bug): a dataset whose first row has 19 tab-separated fields and
whose second row has 18 makes `read_file` fail with the csv reader's
UnequalLengths error (the source builds the reader without `flexible`, so the
`result?` propagates the length mismatch before the 19-field skip test is ever
reached); the claim says ingestion succeeds with the short row skipped. -/
theorem read_file_fails_on_short_row :
    gazRow1.length = 19 ∧ gazRow2.length = 18 ∧
    Geo.read_file [gazRow1, gazRow2] = Except.error (str "UnequalLengths") :=
  ⟨rfl, rfl, rfl⟩

/-- C10 (code bug): a TXT question whose cleaned argument is "abc" makes
`generate_random_number` return the Err "Invalid random query format", which
the `.unwrap()` in the TXT branch of `RandomService::query` turns into a
panic, aborting execution; the claim says the unwrap never aborts. -/
theorem random_service_txt_panics_on_malformed_query :
    RandomService.query RecordType.TXT (str "abc")
      = RandomOutcome.panicked (str "Invalid random query format") := rfl

/-- C1 (amended): for a standard-query opcode, any request carrying more than
5 questions makes `process_service_request` fail with the TooManyQuestions
error ("Too many queries"), returning zero records. -/
theorem process_service_request_rejects_sixth_question
    (h : DnsHandlers) (request : DnsRequest) (sfx : Str)
    (hop : request.opCode = OpCode.Query) (hlen : 5 < request.queries.length) :
    DnsHandlers.process_service_request h request sfx
      = Except.error (str "Too many queries") := by
  unfold DnsHandlers.process_service_request
  rw [hop]
  simp [hlen]

/-- Witness for C1's theorem at a concrete six-question standard query. -/
theorem process_service_request_rejects_sixth_question_witness :
    req6.opCode = OpCode.Query ∧ 5 < req6.queries.length ∧
    DnsHandlers.process_service_request H1 req6 (str "uuid")
      = Except.error (str "Too many queries") :=
  ⟨rfl, by decide,
   process_service_request_rejects_sixth_question H1 req6 (str "uuid") rfl (by decide)⟩

/-- C1 counterexample: a six-question request whose opcode is Status (not a
standard query) fails with "Not a query operation", not with the
TooManyQuestions error the claim predicts for every request with more than 5
questions. -/
theorem process_service_request_opcode_checked_first :
    DnsHandlers.process_service_request H1 reqStatus6 (str "uuid")
      = Except.error (str "Not a query operation") ∧
    str "Not a query operation" ≠ str "Too many queries" :=
  ⟨rfl, by decide⟩

/-- C4 (amended): in the standalone geo module (src/src/geo/mod.rs), the alias
loop of `load` is fallback-only: every key already present in the map keeps
exactly its existing location list through the whole alias phase. -/
theorem geo_alias_phase_preserves_existing_keys
    (locations : List Location) (m : GeoMap) (k : Str) (v : List Location)
    (hpresent : alFind m k = some v) :
    alFind (Geo.aliasPhase locations m) k = some v := by
  induction locations generalizing m with
  | nil => exact hpresent
  | cons loc rest ih =>
    show alFind (Geo.aliasPhase rest
      (match (splitAll loc.timezone_name '/').get? 1 with
       | some cityAlias => mapInsertIfAbsent m (Geo.aliasClean cityAlias) [loc]
       | none => m)) k = some v
    apply ih
    cases hsplit : (splitAll loc.timezone_name '/').get? 1 with
    | none => exact hpresent
    | some cityAlias => exact alFind_mapInsertIfAbsent hpresent _ _

/-- Witness for C4's theorem: the occupied key "paris" keeps its list when the
alias phase processes a location whose timezone alias normalizes onto it. -/
theorem geo_alias_phase_preserves_existing_keys_witness :
    alFind occupiedMap (str "paris") = some [locFR] ∧
    alFind (Geo.aliasPhase [locUS] occupiedMap) (str "paris") = some [locFR] :=
  ⟨rfl, geo_alias_phase_preserves_existing_keys [locUS] occupiedMap
    (str "paris") [locFR] rfl⟩

/-- C4 counterexample: in the service-wrapped geo module
(src/src/services/geo/mod.rs), the alias insertion is an unconditional
`entry(..).or_default().push(..)`: loading Paris followed by
Boulogne-Billancourt (timezone "Europe/Paris") appends Boulogne-Billancourt to
the already-occupied key "paris" (whose name key differs), so `load` does not
leave an occupied alias key unchanged, contradicting the claim. -/
theorem service_geo_load_appends_alias_to_occupied_key :
    normalize locBB.name ≠ str "paris" ∧
    alFind (GeoSvc.load [locFR, locBB]) (str "paris") = some [locFR, locFR, locBB] :=
  ⟨by decide, rfl⟩

/-- C5: for every geo query of the shape city/cc with cc exactly two
characters, `Geo::query` returns either no result or a non-empty list all of
whose locations carry country cc uppercased; it never returns an empty list. -/
theorem geo_query_country_filter_sound
    (m : GeoMap) (q city cc : Str)
    (hsplit : splitOnce q '/' = some (city, cc)) (hlen : cc.length = 2) :
    Geo.query m q = none ∨
    ∃ locs, Geo.query m q = some locs ∧ locs ≠ [] ∧
      ∀ loc ∈ locs, loc.country = toUpperStr cc := by
  unfold Geo.query
  rw [hsplit]
  simp only [hlen, if_pos]
  cases hfind : alFind m (normalize city) with
  | none => exact Or.inl rfl
  | some locations =>
    cases hfilter : locations.filter (fun loc => loc.country == toUpperStr cc) with
    | nil =>
      left
      simp [hfilter]
    | cons a t =>
      right
      refine ⟨a :: t, ?_, by simp, ?_⟩
      · simp [hfilter]
      · intro loc hloc
        have hmem : loc ∈ locations.filter (fun l => l.country == toUpperStr cc) := by
          rw [hfilter]
          exact hloc
        exact beq_iff_eq.mp (List.mem_filter.mp hmem).2

/-- Witness for C5's theorem at the query "paris/us" over the two-Paris index:
only the US entry survives the filter. -/
theorem geo_query_country_filter_sound_witness :
    splitOnce (str "paris/us") '/' = some (str "paris", str "us") ∧
    (str "us").length = 2 ∧
    (Geo.query parisMap (str "paris/us") = none ∨
     ∃ locs, Geo.query parisMap (str "paris/us") = some locs ∧ locs ≠ [] ∧
       ∀ loc ∈ locs, loc.country = toUpperStr (str "us")) :=
  ⟨by decide, rfl,
   geo_query_country_filter_sound parisMap (str "paris/us") (str "paris") (str "us")
     (by decide) rfl⟩

/-- C7: the cleaned argument equals the queried name with the matched
domain-plus-suffix portion and the trailing dot stripped and every character
outside [A-Za-z0-9/\-.:,] removed (stated for names of the shape
argument ++ suffix where the stripping is unambiguous), and in particular the
queried name "5.uuid.example.com." with domain suffix ".uuid.example.com."
cleans to "5". -/
theorem clean_query_strips_suffix_and_sanitizes :
    (∀ arg sfx : Str, sfx ≠ [] → sfx.isSuffixOf arg = false →
      arg.getLast? ≠ some '.' →
      DnsHandlers.clean_query (arg ++ sfx) sfx
        = arg.filter DnsHandlers.allowedQueryChar) ∧
    DnsHandlers.clean_query (str "5.uuid.example.com.") (str ".uuid.example.com.")
      = str "5" := by
  constructor
  · intro arg sfx h1 h2 h3
    unfold DnsHandlers.clean_query
    rw [trimEndMatches_append arg sfx h1 h2, trimEndChar_no_trailing arg '.' h3]
  · rfl

/-- Witness for C7's theorem at the concrete argument "5" and domain suffix
".uuid.example.com.". -/
theorem clean_query_strips_suffix_and_sanitizes_witness :
    str ".uuid.example.com." ≠ ([] : Str) ∧
    (str ".uuid.example.com.").isSuffixOf (str "5") = false ∧
    (str "5").getLast? ≠ some '.' ∧
    DnsHandlers.clean_query (str "5" ++ str ".uuid.example.com.")
        (str ".uuid.example.com.")
      = (str "5").filter DnsHandlers.allowedQueryChar :=
  ⟨by decide, by decide, by decide,
   clean_query_strips_suffix_and_sanitizes.1 (str "5") (str ".uuid.example.com.")
     (by decide) (by decide) (by decide)⟩

/-- C6 (amended): `handle_request` routes to the service registered under s
exactly for the argument-prefixed form: when the first question's name ends
with ".s.domain" (and matches none of the earlier help/ip/pi branches nor any
other registered suffix), the request is handed to `process_service_request`
for s. -/
theorem handle_request_routes_dotted_suffix
    (h : DnsHandlers) (request : DnsRequest) (q : DnsQuestion) (qs : List DnsQuestion)
    (sfx : Str) (f : ServiceFn)
    (hq : request.queries = q :: qs)
    (hhelp : endsWith q.name (str "help." ++ h.domain) = false)
    (hip : endsWith q.name (str "ip." ++ h.domain) = false)
    (hpi : endsWith q.name (str "pi." ++ h.domain) = false)
    (hmem : (sfx, f) ∈ h.services)
    (hmatch : endsWith q.name (str "." ++ sfx ++ str "." ++ h.domain) = true)
    (honly : ∀ p ∈ h.services, p.1 ≠ sfx →
      endsWith q.name (str "." ++ p.1 ++ str "." ++ h.domain) = false) :
    DnsHandlers.handle_request h request
      = DnsHandlers.process_service_request h request sfx := by
  unfold DnsHandlers.handle_request
  rw [hq]
  simp only [hhelp, hip, hpi, Bool.false_eq_true, if_false]
  have hex : (h.services.find?
      (fun p => endsWith q.name (str "." ++ p.1 ++ str "." ++ h.domain))).isSome := by
    rw [List.find?_isSome]
    exact ⟨(sfx, f), hmem, hmatch⟩
  obtain ⟨p, hp⟩ := Option.isSome_iff_exists.mp hex
  have hpred := List.find?_some hp
  have hmemp := List.mem_of_find?_eq_some hp
  have hkey : p.1 = sfx := by
    by_contra hne
    rw [honly p hmemp hne] at hpred
    exact Bool.false_ne_true hpred
  rw [hp]
  show DnsHandlers.process_service_request h request p.1
    = DnsHandlers.process_service_request h request sfx
  rw [hkey]

/-- Witness for C6's amended theorem: the argument-prefixed query
"5.uuid.example.com." is routed to the "uuid" service. -/
theorem handle_request_routes_dotted_suffix_witness :
    DnsHandlers.handle_request H1 reqArg
      = DnsHandlers.process_service_request H1 reqArg (str "uuid") :=
  handle_request_routes_dotted_suffix H1 reqArg
    ⟨str "5.uuid.example.com.", RecordType.TXT⟩ [] (str "uuid") uuidFn
    rfl (by decide) (by decide) (by decide) (List.mem_singleton.mpr rfl) (by decide)
    (fun p hp hne =>
      absurd (congrArg Prod.fst (List.mem_singleton.mp hp)) hne)

/-- C6 counterexample: with suffix "uuid" registered over domain
"example.com.", the bare-suffix query "uuid.example.com." is NOT routed to the
uuid service: `handle_request` answers with the unknown-query record, while
`process_service_request` for "uuid" would have produced the service answer. -/
theorem handle_request_bare_suffix_falls_through :
    DnsHandlers.handle_request H1 reqBare
      = Except.ok [⟨str "uuid.example.com.", 1,
          RDataM.txt [str "error: " ++ (str "unknown query, try: dig help @"
            ++ str "example.com.")]⟩] ∧
    DnsHandlers.process_service_request H1 reqBare (str "uuid")
      = Except.ok [⟨str "uuid.example.com.", 60, RDataM.txt [str "u-1"]⟩] ∧
    DnsHandlers.handle_request H1 reqBare
      ≠ DnsHandlers.process_service_request H1 reqBare (str "uuid") := by
  refine ⟨rfl, rfl, ?_⟩
  intro hcontra
  have h1 : DnsHandlers.handle_request H1 reqBare
      = Except.ok [⟨str "uuid.example.com.", 1,
          RDataM.txt [str "error: " ++ (str "unknown query, try: dig help @"
            ++ str "example.com.")]⟩] := rfl
  have h2 : DnsHandlers.process_service_request H1 reqBare (str "uuid")
      = Except.ok [⟨str "uuid.example.com.", 60, RDataM.txt [str "u-1"]⟩] := rfl
  rw [h1, h2] at hcontra
  simp at hcontra

/-- C8 (amended): a non-empty request whose first question's name matches
neither the help pattern, nor the hardcoded ip/pi patterns, nor (in either the
dotted or the bare form) any registered suffix, is answered with exactly one
TXT record whose TTL is 1 second, whose name is the originally queried name
and whose text directs the client to the help query. -/
theorem handle_request_unknown_returns_help_hint
    (h : DnsHandlers) (request : DnsRequest) (q : DnsQuestion) (qs : List DnsQuestion)
    (hq : request.queries = q :: qs)
    (hhelp : endsWith q.name (str "help." ++ h.domain) = false)
    (hip : endsWith q.name (str "ip." ++ h.domain) = false)
    (hpi : endsWith q.name (str "pi." ++ h.domain) = false)
    (hnone : ∀ p ∈ h.services,
      endsWith q.name (str "." ++ p.1 ++ str "." ++ h.domain) = false ∧
      endsWith q.name (p.1 ++ str "." ++ h.domain) = false) :
    DnsHandlers.handle_request h request
      = Except.ok [⟨q.name, 1,
          RDataM.txt [str "error: "
            ++ (str "unknown query, try: dig help @" ++ h.domain)]⟩] := by
  unfold DnsHandlers.handle_request
  rw [hq]
  simp only [hhelp, hip, hpi, Bool.false_eq_true, if_false]
  have hfind : h.services.find?
      (fun p => endsWith q.name (str "." ++ p.1 ++ str "." ++ h.domain)) = none :=
    List.find?_eq_none.mpr (fun p hp => by simpa using (hnone p hp).1)
  rw [hfind]
  rfl

/-- Witness for C8's amended theorem at the query "bogus.example.com." with
only "uuid" registered. -/
theorem handle_request_unknown_returns_help_hint_witness :
    DnsHandlers.handle_request H1 reqBogus
      = Except.ok [⟨str "bogus.example.com.", 1,
          RDataM.txt [str "error: " ++ (str "unknown query, try: dig help @"
            ++ str "example.com.")]⟩] :=
  handle_request_unknown_returns_help_hint H1 reqBogus
    ⟨str "bogus.example.com.", RecordType.TXT⟩ []
    rfl (by decide) (by decide) (by decide)
    (fun p hp => by
      rw [List.mem_singleton.mp hp]
      exact ⟨by decide, by decide⟩)

/-- C8 counterexample: the query "ip.example.com." matches neither the help
name nor the registered suffix "uuid" in either form, yet `handle_request`
answers through the hardcoded ip branch with a TTL-60 record carrying the
client address — not the single TTL-1 unknown-query record the claim
predicts. -/
theorem handle_request_ip_branch_bypasses_unknown :
    endsWith (str "ip.example.com.") (str "help." ++ H1.domain) = false ∧
    (∀ p ∈ H1.services,
      endsWith (str "ip.example.com.") (str "." ++ p.1 ++ str "." ++ H1.domain) = false ∧
      endsWith (str "ip.example.com.") (p.1 ++ str "." ++ H1.domain) = false) ∧
    DnsHandlers.handle_request H1 reqIp
      = Except.ok [⟨str "ip.example.com.", 60, RDataM.txt [str "9.8.7.6"]⟩] ∧
    (60 : Nat) ≠ 1 := by
  refine ⟨by decide, ?_, rfl, by decide⟩
  intro p hp
  rw [List.mem_singleton.mp hp]
  exact ⟨by decide, by decide⟩

end RdnsToys
